import Mathlib

/-!
Verification of the tikv batch-system scheduling core and the server disk-usage
checker, as a shallow embedding in Lean 4.

Part A embeds `components/server/src/common.rs` (`calculate_disk_usage`,
`DiskUsageChecker::inspect`) and the public re-export list of
`components/batch-system/src/lib.rs`.

Part B models the batch-system runtime (mailbox, router, scheduler, poller)
from the specification, because only the crate root `lib.rs` of
`components/batch-system` is in the sources; the module files `batch.rs`,
`mailbox.rs`, `router.rs`, `fsm.rs` and `scheduler.rs` it declares are not.
-/

namespace TikvSpec

/- ## Part A: disk usage checker (components/server/src/common.rs) -/

/-- `disk::DiskUsage` status values. -/
inductive DiskUsage where
  | Normal
  | AlmostFull
  | AlreadyFull
  deriving DecidableEq, Repr

/-- `calculate_disk_usage` from common.rs lines 912-920: combine two disk
usage statuses, the more severe one winning. -/
def calculate_disk_usage (a b : DiskUsage) : DiskUsage :=
  match a, b with
  | DiskUsage.AlreadyFull, _ => DiskUsage.AlreadyFull
  | _, DiskUsage.AlreadyFull => DiskUsage.AlreadyFull
  | DiskUsage.AlmostFull, _ => DiskUsage.AlmostFull
  | _, DiskUsage.AlmostFull => DiskUsage.AlmostFull
  | DiskUsage.Normal, DiskUsage.Normal => DiskUsage.Normal

/-- Severity order used by the spec: Normal < AlmostFull < AlreadyFull. -/
def severity : DiskUsage → Nat
  | DiskUsage.Normal => 0
  | DiskUsage.AlmostFull => 1
  | DiskUsage.AlreadyFull => 2

/-- `u64::MAX`. -/
def u64Max : Nat := 2 ^ 64 - 1

/-- The fields of `DiskUsageChecker` (common.rs lines 926-949). Sizes and
thresholds are `u64` in Rust; they are modelled as `Nat` and every operation
below uses the same truncation the Rust code does (`checked_sub` +
`unwrap_or_default` is truncated subtraction; the one `+` on capacities is
taken mod 2^64). -/
structure DiskUsageChecker where
  kvdb_path : String
  raft_path : String
  raft_auxiliary_path : Option String
  separated_raft_mount_path : Bool
  separated_raft_auxiliary_mount_path : Bool
  separated_raft_auxiliary_and_kvdb_mount_path : Bool
  kvdb_almost_full_thd : Nat
  raft_almost_full_thd : Nat
  config_disk_capacity : Nat
  deriving DecidableEq, Repr

/-- Result of `DiskUsageChecker::inspect`: whole-disk status, kvdb status,
raft status, whole capacity, whole available. -/
structure InspectResult where
  disk_status : DiskUsage
  kvdb_status : DiskUsage
  raft_status : DiskUsage
  capacity : Nat
  available : Nat
  deriving DecidableEq, Repr

/-- The early-return value used by `inspect` when `get_disk_space_stats`
fails (common.rs lines 1011-1017 and 1075-1081). -/
def inspectFailureResult : InspectResult :=
  { disk_status := DiskUsage.Normal
    kvdb_status := DiskUsage.Normal
    raft_status := DiskUsage.Normal
    capacity := 0
    available := 0 }

/-- `DiskUsageChecker::inspect` (common.rs lines 982-1109). The filesystem
call `disk::get_disk_space_stats(path)` is abstracted as the oracle
`stats : String -> Option (Nat x Nat)` returning `(capacity, available)`,
`none` meaning the call returned `Err`. The match structure mirrors the
Rust control flow, including the two early returns on a failed stats call
and the non-returning failure branch for the auxiliary raft directory
(which yields `(0, 0)` instead; in Rust that branch also carries an
`assert!(raft_auxiliary_path.is_some())`, modelled by treating a missing
auxiliary path like a failed stats call). -/
def DiskUsageChecker.inspect (c : DiskUsageChecker)
    (stats : String → Option (Nat × Nat))
    (kvdb_used_size raft_used_size : Nat) : InspectResult :=
  let kvdb_already_full_thd := c.kvdb_almost_full_thd / 2
  let raft_already_full_thd := c.raft_almost_full_thd / 2
  let raftStep : Option DiskUsage :=
    if !c.separated_raft_mount_path || c.raft_almost_full_thd == 0 then
      some DiskUsage.Normal
    else
      match stats c.raft_path with
      | none => none
      | some (cap, avail) =>
        let capAvail :=
          if !c.separated_raft_auxiliary_mount_path then
            (u64Max, u64Max)
          else if c.separated_raft_auxiliary_and_kvdb_mount_path then
            let auxStats :=
              match c.raft_auxiliary_path with
              | none => (0, 0)
              | some p =>
                match stats p with
                | none => (0, 0)
                | some (total, avail2) => (total, avail2)
            ((cap + auxStats.1) % 2 ^ 64, (avail + auxStats.2) % 2 ^ 64)
          else
            (cap, avail)
        let raft_disk_available := min (capAvail.1 - raft_used_size) capAvail.2
        some
          (if raft_disk_available ≤ raft_already_full_thd then DiskUsage.AlreadyFull
           else if raft_disk_available ≤ c.raft_almost_full_thd then DiskUsage.AlmostFull
           else DiskUsage.Normal)
  match raftStep with
  | none => inspectFailureResult
  | some raft_disk_status =>
    match stats c.kvdb_path with
    | none => inspectFailureResult
    | some (disk_cap, disk_avail) =>
      let capacity :=
        if c.config_disk_capacity == 0 || disk_cap < c.config_disk_capacity then disk_cap
        else c.config_disk_capacity
      let available := min (capacity - kvdb_used_size) disk_avail
      let cur_kv_disk_status :=
        if available ≤ kvdb_already_full_thd then DiskUsage.AlreadyFull
        else if available ≤ c.kvdb_almost_full_thd then DiskUsage.AlmostFull
        else DiskUsage.Normal
      { disk_status := calculate_disk_usage raft_disk_status cur_kv_disk_status
        kvdb_status := cur_kv_disk_status
        raft_status := raft_disk_status
        capacity := capacity
        available := available }

/- ## Part A continued: batch-system crate root re-exports (lib.rs) -/

/-- The names re-exported by `pub use` at the root of the batch-system crate
(components/batch-system/src/lib.rs lines 14-24), in source order. -/
def batchSystemReexports : List String :=
  ["BatchRouter", "BatchSystem", "FsmTypes", "HandleResult", "HandlerBuilder",
   "PollHandler", "Poller", "PoolState", "create_system", "Config",
   "Fsm", "FsmScheduler", "Priority", "BasicMailbox", "Mailbox",
   "FsmType", "Router"]

/- ## Part B: batch-system runtime model -/

/-- Modelled from the spec: `Priority` of an Fsm (fsm.rs is not in the
sources); spec section 3: "a `priority` (Normal | Low)". -/
inductive Priority where
  | Normal
  | Low
  deriving DecidableEq, Repr

/-- Modelled from the spec: the error taxonomy of `send` (spec section 7:
`Disconnected` (target Fsm closed/never existed), `Full` (bounded mailbox
backpressure); section 4.3: router `send` "returns `NotFound` if
unregistered"). -/
inductive NotifyError where
  | Disconnected
  | Full
  | NotFound
  deriving DecidableEq, Repr

/-- Modelled from the spec: the schedulable actor (fsm.rs is not in the
sources). Spec section 3: identity, priority; the `stopped` flag is shared
state read through the mailbox and lives on `BasicMailbox` below. `handled`
records the messages this Fsm's handler has processed, in order. -/
structure Fsm where
  fid : Nat
  fsmPriority : Priority
  handled : List Nat
  deriving DecidableEq, Repr

/-- Modelled from the spec: `BasicMailbox` (mailbox.rs is not in the
sources). Spec sections 3 and 4.2: the sending half of an unbounded or
bounded FIFO channel (`queue`, `capacity`), a cell holding the Fsm
("present while idle/registered, temporarily vacated while a Poller is
actively polling it"), a "needs-reschedule" flag set when a send arrives
while the Fsm is checked out, and the closed/stopped lifecycle flags
(`close()` "marks stopped ... prevents further sends from succeeding"). -/
structure BasicMailbox where
  queue : List Nat
  capacity : Option Nat
  closed : Bool
  stopped : Bool
  cell : Option Fsm
  resched : Bool
  deriving DecidableEq, Repr

/-- Modelled from the spec: whether a bounded channel is saturated
(spec section 4.2: `Full` "when a bounded channel is saturated"). -/
def mailboxFull (mb : BasicMailbox) : Bool :=
  match mb.capacity with
  | none => false
  | some c => c ≤ mb.queue.length

/-- Modelled from the spec: `BasicMailbox` send (spec section 4.2): fails
with `Disconnected` when closed/destroyed, `Full` when a bounded channel is
saturated, otherwise appends to the FIFO. Scheduling is the router's job
(see `routerSend`). -/
def mailboxSend (mb : BasicMailbox) (msg : Nat) : Except NotifyError BasicMailbox :=
  if mb.closed then Except.error NotifyError.Disconnected
  else if mailboxFull mb then Except.error NotifyError.Full
  else Except.ok { mb with queue := mb.queue ++ [msg] }

/-- Modelled from the spec: `take(for_poll)` (spec section 4.2): atomically
removes the Fsm from the cell for exclusive use by the calling Poller;
returns `none` if another Poller already holds it. Taking begins a fresh
checkout, so the needs-reschedule flag is cleared. -/
def BasicMailbox.takeFsm (mb : BasicMailbox) : Option (Fsm × BasicMailbox) :=
  match mb.cell with
  | none => none
  | some f => some (f, { mb with cell := none, resched := false })

/-- Modelled from the spec: a fresh mailbox whose cell holds a fresh Fsm
(spec section 3: Fsm "owned exclusively by its Mailbox while registered"). -/
def newMailbox (cap : Option Nat) (id : Nat) (pr : Priority) : BasicMailbox :=
  { queue := []
    capacity := cap
    closed := false
    stopped := false
    cell := some { fid := id, fsmPriority := pr, handled := [] }
    resched := false }

/-- Modelled from the spec: the whole runtime state — the Router's id map
(spec section 3: "a concurrent mapping from id to BasicMailbox ... plus
exactly one reserved control-Fsm entry"), the ready-queue with its separate
always-checked-first control slot (spec section 3), the Fsms currently
checked out by pollers (`held`), and a monotone log of every
(fsm id, message) the handler has processed. -/
structure System where
  control : BasicMailbox
  normals : List (Nat × BasicMailbox)
  readyQueue : List Nat
  controlReady : Bool
  held : List (Nat × Fsm)
  processedLog : List (Nat × Nat)
  deriving DecidableEq, Repr

/-- Look up a normal mailbox by id in the Router's map. -/
def lookupMb : List (Nat × BasicMailbox) → Nat → Option BasicMailbox
  | [], _ => none
  | (k, mb) :: rest, id => if k = id then some mb else lookupMb rest id

/-- Replace the mailbox stored under `id` (no-op if absent). -/
def setMbList : List (Nat × BasicMailbox) → Nat → BasicMailbox → List (Nat × BasicMailbox)
  | [], _, _ => []
  | (k, mb) :: rest, id, mb' =>
    if k = id then (k, mb') :: rest else (k, mb) :: setMbList rest id mb'

/-- Look up a checked-out Fsm by id. -/
def lookupHeld : List (Nat × Fsm) → Nat → Option Fsm
  | [], _ => none
  | (k, f) :: rest, id => if k = id then some f else lookupHeld rest id

/-- Remove a checked-out Fsm by id. -/
def removeHeld : List (Nat × Fsm) → Nat → List (Nat × Fsm)
  | [], _ => []
  | (k, f) :: rest, id => if k = id then rest else (k, f) :: removeHeld rest id

/-- Replace a checked-out Fsm by id (no-op if absent). -/
def setHeld : List (Nat × Fsm) → Nat → Fsm → List (Nat × Fsm)
  | [], _, _ => []
  | (k, f) :: rest, id, f' =>
    if k = id then (k, f') :: rest else (k, f) :: setHeld rest id f'

/-- Update the mailbox of `id` inside a system state. -/
def setMb (s : System) (id : Nat) (mb : BasicMailbox) : System :=
  { s with normals := setMbList s.normals id mb }

/-- Modelled from the spec: `FsmScheduler::schedule` for a normal Fsm
(scheduler.rs is not in the sources). Spec section 4.2: a send "triggers
the Scheduler to enqueue the Fsm unless it is already pending" — enqueueing
is coalesced, so an id already on the ready-queue is not pushed again. -/
def pushReady (s : System) (id : Nat) : System :=
  if id ∈ s.readyQueue then s else { s with readyQueue := s.readyQueue ++ [id] }

/-- Modelled from the spec: `Router::send(id, msg)` (router.rs is not in
the sources). Spec section 4.3: look up the mailbox and forward; `NotFound`
if unregistered, mailbox errors propagate. Spec section 4.2: on success the
Scheduler enqueues the Fsm, unless the Fsm is currently checked out by a
poller, in which case only the needs-reschedule flag is set. -/
def routerSend (s : System) (id msg : Nat) : Except NotifyError System :=
  match lookupMb s.normals id with
  | none => Except.error NotifyError.NotFound
  | some mb =>
    match mailboxSend mb msg with
    | Except.error e => Except.error e
    | Except.ok mb' =>
      match mb.cell with
      | some _ => Except.ok (pushReady (setMb s id mb') id)
      | none => Except.ok (setMb s id { mb' with resched := true })

/-- Modelled from the spec: `Router::send_control` (spec section 4.3),
delivering to the reserved control mailbox; the control ready slot plays
the role of the scheduler's control queue. -/
def sendControl (s : System) (msg : Nat) : Except NotifyError System :=
  match mailboxSend s.control msg with
  | Except.error e => Except.error e
  | Except.ok c' =>
    match s.control.cell with
    | some _ => Except.ok { s with control := c', controlReady := true }
    | none => Except.ok { s with control := { c' with resched := true } }

/-- Modelled from the spec: `Router::register(id, mailbox)` (spec section
4.3): inserts; fails (drops the request) if `id` is already present while
still open. A closed tombstone may be explicitly re-registered (spec
section 3: an id must never be reused "without explicit re-registration"). -/
def routerRegister (s : System) (id : Nat) (cap : Option Nat) (pr : Priority) : System :=
  match lookupMb s.normals id with
  | some mb => if mb.closed then setMb s id (newMailbox cap id pr) else s
  | none => { s with normals := s.normals ++ [(id, newMailbox cap id pr)] }

/-- Modelled from the spec: `Router::close(id)` combined with
`BasicMailbox::close` (spec sections 4.2 and 4.3): marks the mailbox closed
and the Fsm stopped, drains and drops the remaining messages, and prevents
further sends from succeeding; the entry stays as a tombstone so stale
senders observe a closed error. The Fsm is not synchronously destroyed: a
Poller currently holding it drops it at release time via the stopped flag. -/
def routerClose (s : System) (id : Nat) : System :=
  match lookupMb s.normals id with
  | none => s
  | some mb => setMb s id { mb with closed := true, stopped := true, queue := [] }

/-- Modelled from the spec: the PollHandler draining up to `budget` pending
messages of one Fsm (spec section 4.5: handling is "capped by a per-Fsm
message budget"). Returns the drained mailbox, the Fsm with the processed
messages appended to its handler history, and the processed messages. -/
def handleBudget (mb : BasicMailbox) (f : Fsm) (budget : Nat) :
    BasicMailbox × Fsm × List Nat :=
  let processed := mb.queue.take budget
  ({ mb with queue := mb.queue.drop budget },
   { f with handled := f.handled ++ processed },
   processed)

/-- Modelled from the spec: the re-enqueue policy applied when a Poller is
done with an Fsm (spec section 4.5): (a) dropped permanently if stopped;
(b) re-enqueued if its mailbox still holds pending messages; and, per spec
section 4.2 `release`, re-notified if the needs-reschedule flag was set
while checked out; (c) otherwise released back to the idle cell. `mb` is
the mailbox state after handling, with the cell still vacated. -/
def reclaim (s : System) (id : Nat) (mb : BasicMailbox) (f : Fsm) : System :=
  if mb.stopped then
    setMb s id { mb with closed := true, cell := none, resched := false }
  else if !mb.queue.isEmpty then
    pushReady (setMb s id { mb with cell := some f, resched := false }) id
  else if mb.resched then
    pushReady (setMb s id { mb with cell := some f, resched := false }) id
  else
    setMb s id { mb with cell := some f }

/-- Modelled from the spec: one Poller checking an Fsm out of its cell
(spec section 4.2 `take`); the Fsm joins the poller-held set. -/
def takeStep (s : System) (id : Nat) : System :=
  match lookupMb s.normals id with
  | none => s
  | some mb =>
    match mb.takeFsm with
    | none => s
    | some (f, mb') => { setMb s id mb' with held := (id, f) :: s.held }

/-- Modelled from the spec: the poller processing up to `budget` messages
of an Fsm it holds; each processed message is appended to the global
processed log. -/
def handleStep (s : System) (id budget : Nat) : System :=
  match lookupHeld s.held id, lookupMb s.normals id with
  | some f, some mb =>
    let r := handleBudget mb f budget
    { setMb s id r.1 with
      held := setHeld s.held id r.2.1
      processedLog := s.processedLog ++ r.2.2.map (fun m => (id, m)) }
  | _, _ => s

/-- Modelled from the spec: `release(fsm)` (spec section 4.2): return the
held Fsm, applying the re-enqueue policy; if the needs-reschedule flag was
set while it was checked out, the Scheduler is immediately re-notified. -/
def releaseStep (s : System) (id : Nat) : System :=
  match lookupHeld s.held id, lookupMb s.normals id with
  | some f, some mb => reclaim { s with held := removeHeld s.held id } id mb f
  | _, _ => s

/-- Modelled from the spec: one batch slot (spec section 9: a tagged union
over the control variant and normal Fsms). -/
inductive BatchEntry where
  | control
  | normal (id : Nat)
  deriving DecidableEq, Repr

/-- Modelled from the spec: batch collection (spec section 4.5
`BatchCollecting`): pull up to `maxBatch` ready Fsms, the control Fsm
always included first if pending (spec section 3: the control Fsm has "a
separate, always-checked-first slot"). Returns the batch and the state
with the collected work removed from the ready slots. -/
def fetchBatch (s : System) (maxBatch : Nat) : List BatchEntry × System :=
  if s.controlReady then
    (BatchEntry.control :: (s.readyQueue.take (maxBatch - 1)).map BatchEntry.normal,
     { s with
       controlReady := false
       readyQueue := s.readyQueue.drop (maxBatch - 1) })
  else
    ((s.readyQueue.take maxBatch).map BatchEntry.normal,
     { s with readyQueue := s.readyQueue.drop maxBatch })

/-- Modelled from the spec: a Poller polling one normal Fsm within a round
(spec section 4.5 `Polling`): take the Fsm from its cell (skip it if
another Poller holds it), drain up to `budget` messages through the
handler, then apply the re-enqueue policy. The three phases happen with no
interleaved operation, matching a single poller's exclusive checkout. -/
def pollOne (s : System) (id budget : Nat) : System :=
  match lookupMb s.normals id with
  | none => s
  | some mb =>
    match mb.takeFsm with
    | none => s
    | some (f, mb1) =>
      let r := handleBudget mb1 f budget
      reclaim
        { setMb s id r.1 with
          processedLog := s.processedLog ++ r.2.2.map (fun m => (id, m)) }
        id r.1 r.2.1

/-- Modelled from the spec: polling the control Fsm (spec section 4.5);
same take / handle / reclaim shape as a normal Fsm, against the reserved
control mailbox and the control ready slot. -/
def pollControl (s : System) (budget : Nat) : System :=
  match s.control.takeFsm with
  | none => s
  | some (f, c1) =>
    let r := handleBudget c1 f budget
    if r.1.stopped then
      { s with control := { r.1 with closed := true } }
    else if !r.1.queue.isEmpty || r.1.resched then
      { s with
        control := { r.1 with cell := some r.2.1, resched := false }
        controlReady := true }
    else
      { s with control := { r.1 with cell := some r.2.1 } }

/-- Modelled from the spec: one full poll round of a Poller (spec section
4.5): collect a batch (control first), then poll every Fsm in the batch
with the per-Fsm budget. -/
def pollRound (s : System) (maxBatch budget : Nat) : System :=
  let fb := fetchBatch s maxBatch
  fb.1.foldl
    (fun st e =>
      match e with
      | BatchEntry.control => pollControl st budget
      | BatchEntry.normal id => pollOne st id budget)
    fb.2

/-- Modelled from the spec: the operations the environment (producers and
pollers) can perform on a running system after setup. -/
inductive Op where
  | send (id msg : Nat)
  | sendCtl (msg : Nat)
  | close (id : Nat)
  | take (id : Nat)
  | handle (id budget : Nat)
  | release (id : Nat)
  | poll (maxBatch budget : Nat)
  deriving DecidableEq, Repr

/-- Modelled from the spec: apply one operation; a failed send leaves the
state unchanged (the error is returned to the caller, spec section 7). -/
def stepOp (s : System) (op : Op) : System :=
  match op with
  | Op.send id msg =>
    match routerSend s id msg with
    | Except.ok s' => s'
    | Except.error _ => s
  | Op.sendCtl msg =>
    match sendControl s msg with
    | Except.ok s' => s'
    | Except.error _ => s
  | Op.close id => routerClose s id
  | Op.take id => takeStep s id
  | Op.handle id budget => handleStep s id budget
  | Op.release id => releaseStep s id
  | Op.poll maxBatch budget => pollRound s maxBatch budget

/-- Run a sequence of operations. -/
def runOps (s : System) (ops : List Op) : System :=
  ops.foldl stepOp s

/-- The messages the handler has processed for Fsm `id`, in order. -/
def logFor (s : System) (id : Nat) : List (Nat × Nat) :=
  s.processedLog.filter (fun e => e.1 = id)

/-- The handler history of the Fsm owned by mailbox `id`, whether the Fsm
is parked in its cell or checked out by a poller. -/
def handledOf (s : System) (id : Nat) : List Nat :=
  match lookupHeld s.held id with
  | some f => f.handled
  | none =>
    match lookupMb s.normals id with
    | some mb =>
      match mb.cell with
      | some f => f.handled
      | none => []
    | none => []

/-- The closed-tombstone predicate: mailbox `id` is registered, marked
closed, and its FIFO has been drained (the state `routerClose` leaves
behind, spec section 4.2: `close()` "marks stopped, drains and drops
remaining messages, prevents further sends from succeeding"). -/
def closedTomb (s : System) (id : Nat) : Bool :=
  match lookupMb s.normals id with
  | some mb => mb.closed && mb.queue.isEmpty
  | none => false

/-- The state of a mailbox while its Fsm is checked out and the poller has
drained up to `budget` messages: cell vacated, reschedule flag cleared by
the take, FIFO advanced past the drained prefix. -/
def drained (mb : BasicMailbox) (budget : Nat) : BasicMailbox :=
  { mb with cell := none, resched := false, queue := mb.queue.drop budget }

/-- The empty system: a fresh control mailbox, no normal Fsms. -/
def emptySystem : System :=
  { control := newMailbox none 0 Priority.Normal
    normals := []
    readyQueue := []
    controlReady := false
    held := []
    processedLog := [] }

/-- The spec scenario of section 8: Fsm id 7 registered with priority
Normal and three messages sent to it. -/
def budgetSetup : System :=
  runOps (routerRegister emptySystem 7 none Priority.Normal)
    [Op.send 7 1, Op.send 7 2, Op.send 7 3]

/-- First poll round of the scenario, with `max_batch_size = 1` and per-Fsm
budget 2. -/
def budgetRound1 : System := pollRound budgetSetup 1 2

/-- Second poll round of the scenario. -/
def budgetRound2 : System := pollRound budgetRound1 1 2

/- ## Helper lemmas about the association-list operations -/

theorem lookupMb_setMbList_self (l : List (Nat × BasicMailbox)) (id : Nat)
    (mb mb' : BasicMailbox) (h : lookupMb l id = some mb) :
    lookupMb (setMbList l id mb') id = some mb' := by
  induction l with
  | nil => simp [lookupMb] at h
  | cons p rest ih =>
    obtain ⟨k, mbk⟩ := p
    by_cases hk : k = id
    · simp [lookupMb, setMbList, hk]
    · simp only [lookupMb, setMbList, hk, if_false] at h ⊢
      exact ih h

theorem lookupMb_setMbList_ne (l : List (Nat × BasicMailbox)) (id id' : Nat)
    (mb' : BasicMailbox) (h : id ≠ id') :
    lookupMb (setMbList l id mb') id' = lookupMb l id' := by
  induction l with
  | nil => simp [setMbList]
  | cons p rest ih =>
    obtain ⟨k, mbk⟩ := p
    by_cases hk : k = id
    · subst hk
      simp [lookupMb, setMbList, h]
    · simp only [setMbList, hk, if_false, lookupMb]
      by_cases hk' : k = id'
      · simp [hk']
      · simp [hk', ih]

theorem setMbList_absent (l : List (Nat × BasicMailbox)) (id : Nat)
    (mb' : BasicMailbox) (h : lookupMb l id = none) :
    setMbList l id mb' = l := by
  induction l with
  | nil => simp [setMbList]
  | cons p rest ih =>
    obtain ⟨k, mbk⟩ := p
    by_cases hk : k = id
    · simp [lookupMb, hk] at h
    · simp only [lookupMb, hk, if_false] at h
      simp [setMbList, hk, ih h]

theorem mem_pushReady (s : System) (id : Nat) : id ∈ (pushReady s id).readyQueue := by
  unfold pushReady
  by_cases h : id ∈ s.readyQueue
  · simp [h]
  · simp [h]

theorem takeStep_absent (s : System) (id : Nat)
    (hl : lookupMb s.normals id = none) : takeStep s id = s := by
  simp only [takeStep, hl]

theorem takeStep_none_cell (s : System) (id : Nat) (mb : BasicMailbox)
    (hl : lookupMb s.normals id = some mb) (ht : mb.takeFsm = none) :
    takeStep s id = s := by
  simp only [takeStep, hl, ht]

theorem takeStep_some (s : System) (id : Nat) (mb mbB : BasicMailbox) (f : Fsm)
    (hl : lookupMb s.normals id = some mb) (ht : mb.takeFsm = some (f, mbB)) :
    takeStep s id = { setMb s id mbB with held := (id, f) :: s.held } := by
  simp only [takeStep, hl, ht]

theorem takeFsm_some_cell_none (mb mbB : BasicMailbox) (f : Fsm)
    (ht : mb.takeFsm = some (f, mbB)) : mbB.cell = none := by
  cases hc : mb.cell with
  | none => simp [BasicMailbox.takeFsm, hc] at ht
  | some g =>
    simp only [BasicMailbox.takeFsm, hc, Option.some.injEq, Prod.mk.injEq] at ht
    rw [← ht.2]

theorem pushReady_normals (s : System) (id : Nat) :
    (pushReady s id).normals = s.normals := by
  unfold pushReady
  by_cases h : id ∈ s.readyQueue <;> simp [h]

theorem pushReady_processedLog (s : System) (id : Nat) :
    (pushReady s id).processedLog = s.processedLog := by
  unfold pushReady
  by_cases h : id ∈ s.readyQueue <;> simp [h]

theorem closedTomb_elim (s : System) (id : Nat) (h : closedTomb s id = true) :
    ∃ mb, lookupMb s.normals id = some mb ∧ mb.closed = true ∧ mb.queue = [] := by
  unfold closedTomb at h
  cases hl : lookupMb s.normals id with
  | none => rw [hl] at h; simp at h
  | some mb =>
    rw [hl] at h
    simp only [Bool.and_eq_true, List.isEmpty_iff] at h
    exact ⟨mb, rfl, h.1, h.2⟩

theorem closedTomb_intro (s : System) (id : Nat) (mb : BasicMailbox)
    (hl : lookupMb s.normals id = some mb) (hc : mb.closed = true)
    (hq : mb.queue = []) : closedTomb s id = true := by
  simp only [closedTomb, hl, hc, hq, Bool.true_and, List.isEmpty_nil]

theorem closedTomb_congr (s1 s2 : System) (id : Nat) (h : s1.normals = s2.normals) :
    closedTomb s1 id = closedTomb s2 id := by
  unfold closedTomb
  rw [h]

theorem logFor_congr (s1 s2 : System) (id : Nat)
    (h : s1.processedLog = s2.processedLog) : logFor s1 id = logFor s2 id := by
  unfold logFor
  rw [h]

theorem closedTomb_eq_of_lookup (s1 s2 : System) (id : Nat)
    (h : lookupMb s1.normals id = lookupMb s2.normals id) :
    closedTomb s1 id = closedTomb s2 id := by
  unfold closedTomb
  rw [h]

/- Equation lemmas for `routerSend`. -/

theorem routerSend_absent (s : System) (id msg : Nat)
    (hl : lookupMb s.normals id = none) :
    routerSend s id msg = Except.error NotifyError.NotFound := by
  simp only [routerSend, hl]

theorem routerSend_closed (s : System) (id msg : Nat) (mb : BasicMailbox)
    (hl : lookupMb s.normals id = some mb) (hc : mb.closed = true) :
    routerSend s id msg = Except.error NotifyError.Disconnected := by
  simp only [routerSend, hl, mailboxSend, hc, if_true]

theorem routerSend_ok_idle (s : System) (id msg : Nat) (mb : BasicMailbox) (f : Fsm)
    (hl : lookupMb s.normals id = some mb) (hc : mb.closed = false)
    (hf : mailboxFull mb = false) (hcell : mb.cell = some f) :
    routerSend s id msg =
      Except.ok (pushReady (setMb s id { mb with queue := mb.queue ++ [msg] }) id) := by
  simp only [routerSend, hl, mailboxSend, hc, hf, Bool.false_eq_true, if_false, hcell]

theorem routerSend_ok_polling (s : System) (id msg : Nat) (mb : BasicMailbox)
    (hl : lookupMb s.normals id = some mb) (hc : mb.closed = false)
    (hf : mailboxFull mb = false) (hcell : mb.cell = none) :
    routerSend s id msg =
      Except.ok (setMb s id { mb with queue := mb.queue ++ [msg], resched := true }) := by
  simp only [routerSend, hl, mailboxSend, hc, hf, Bool.false_eq_true, if_false, hcell]

theorem routerSend_ok_lookup_ne (s : System) (idB msg : Nat) (s2 : System) (id : Nat)
    (hne : idB ≠ id) (h : routerSend s idB msg = Except.ok s2) :
    lookupMb s2.normals id = lookupMb s.normals id ∧
      s2.processedLog = s.processedLog := by
  unfold routerSend at h
  cases hl2 : lookupMb s.normals idB with
  | none => simp only [hl2] at h; simp at h
  | some mbB =>
    simp only [hl2] at h
    cases hm : mailboxSend mbB msg with
    | error e => simp only [hm] at h; simp at h
    | ok mbB2 =>
      simp only [hm] at h
      cases hc : mbB.cell with
      | some g =>
        simp only [hc] at h
        injection h with h2
        rw [← h2]
        refine ⟨?_, ?_⟩
        · rw [pushReady_normals]
          exact lookupMb_setMbList_ne s.normals idB id mbB2 hne
        · rw [pushReady_processedLog]
          rfl
      | none =>
        simp only [hc] at h
        injection h with h2
        rw [← h2]
        exact ⟨lookupMb_setMbList_ne s.normals idB id _ hne, rfl⟩

/- Equation and preservation lemmas for `reclaim`. -/

theorem reclaim_stopped (s : System) (id : Nat) (mb : BasicMailbox) (f : Fsm)
    (h : mb.stopped = true) :
    reclaim s id mb f =
      setMb s id { mb with closed := true, cell := none, resched := false } := by
  simp only [reclaim, h, if_true]

theorem reclaim_pending (s : System) (id : Nat) (mb : BasicMailbox) (f : Fsm)
    (h1 : mb.stopped = false) (h2 : mb.queue.isEmpty = false) :
    reclaim s id mb f =
      pushReady (setMb s id { mb with cell := some f, resched := false }) id := by
  simp only [reclaim, h1, h2, Bool.false_eq_true, if_false, Bool.not_false, if_true]

theorem reclaim_resched (s : System) (id : Nat) (mb : BasicMailbox) (f : Fsm)
    (h1 : mb.stopped = false) (h2 : mb.queue.isEmpty = true) (h3 : mb.resched = true) :
    reclaim s id mb f =
      pushReady (setMb s id { mb with cell := some f, resched := false }) id := by
  simp only [reclaim, h1, h2, h3, Bool.false_eq_true, if_false, Bool.not_true, if_true]

theorem reclaim_idle (s : System) (id : Nat) (mb : BasicMailbox) (f : Fsm)
    (h1 : mb.stopped = false) (h2 : mb.queue.isEmpty = true) (h3 : mb.resched = false) :
    reclaim s id mb f = setMb s id { mb with cell := some f } := by
  simp only [reclaim, h1, h2, h3, Bool.false_eq_true, if_false, Bool.not_true]

theorem reclaim_processedLog (s : System) (id : Nat) (mb : BasicMailbox) (f : Fsm) :
    (reclaim s id mb f).processedLog = s.processedLog := by
  unfold reclaim
  split
  · rfl
  · split
    · rw [pushReady_processedLog]
      rfl
    · split
      · rw [pushReady_processedLog]
        rfl
      · rfl

theorem mem_pushReady_elim (s : System) (id idC : Nat)
    (h : idC ∈ (pushReady s id).readyQueue) : idC ∈ s.readyQueue ∨ idC = id := by
  unfold pushReady at h
  by_cases hm : id ∈ s.readyQueue
  · rw [if_pos hm] at h
    exact Or.inl h
  · rw [if_neg hm] at h
    rcases List.mem_append.mp h with h1 | h1
    · exact Or.inl h1
    · exact Or.inr (List.mem_singleton.mp h1)

theorem reclaim_readyQueue_subset (s : System) (id : Nat) (mb : BasicMailbox) (f : Fsm)
    (idC : Nat) (h : idC ∈ (reclaim s id mb f).readyQueue) :
    idC ∈ s.readyQueue ∨ idC = id := by
  unfold reclaim at h
  revert h
  split
  · intro h; exact Or.inl h
  · split
    · intro h
      exact mem_pushReady_elim
        (setMb s id { mb with cell := some f, resched := false }) id idC h
    · split
      · intro h
        exact mem_pushReady_elim
          (setMb s id { mb with cell := some f, resched := false }) id idC h
      · intro h
        exact Or.inl h

theorem reclaim_lookup_ne (s : System) (idB : Nat) (mb : BasicMailbox) (f : Fsm)
    (id : Nat) (hne : idB ≠ id) :
    lookupMb (reclaim s idB mb f).normals id = lookupMb s.normals id := by
  unfold reclaim
  split
  · exact lookupMb_setMbList_ne s.normals idB id _ hne
  · split
    · rw [pushReady_normals]
      exact lookupMb_setMbList_ne s.normals idB id _ hne
    · split
      · rw [pushReady_normals]
        exact lookupMb_setMbList_ne s.normals idB id _ hne
      · exact lookupMb_setMbList_ne s.normals idB id _ hne

theorem reclaim_tomb_self (s : System) (id : Nat) (mb : BasicMailbox) (f : Fsm)
    (mbC : BasicMailbox) (hl : lookupMb s.normals id = some mbC)
    (hc : mb.closed = true) (hq : mb.queue = []) :
    closedTomb (reclaim s id mb f) id = true := by
  unfold reclaim
  split
  · exact closedTomb_intro _ id _
      (lookupMb_setMbList_self s.normals id mbC _ hl) rfl hq
  · split
    · rw [show ∀ t : System, closedTomb (pushReady t id) id = closedTomb t id from
        fun t => closedTomb_congr _ t id (pushReady_normals t id)]
      exact closedTomb_intro _ id _
        (lookupMb_setMbList_self s.normals id mbC _ hl) hc hq
    · split
      · rw [show ∀ t : System, closedTomb (pushReady t id) id = closedTomb t id from
          fun t => closedTomb_congr _ t id (pushReady_normals t id)]
        exact closedTomb_intro _ id _
          (lookupMb_setMbList_self s.normals id mbC _ hl) hc hq
      · exact closedTomb_intro _ id _
          (lookupMb_setMbList_self s.normals id mbC _ hl) hc hq

theorem pollOne_eq (s : System) (id budget : Nat) (mb : BasicMailbox) (f : Fsm)
    (hmb : lookupMb s.normals id = some mb) (hcell : mb.cell = some f) :
    pollOne s id budget =
      reclaim
        { setMb s id (drained mb budget) with
          processedLog := s.processedLog ++ (mb.queue.take budget).map (fun m => (id, m)) }
        id (drained mb budget)
        { f with handled := f.handled ++ mb.queue.take budget } := by
  simp only [pollOne, hmb, BasicMailbox.takeFsm, hcell, handleBudget, drained]

theorem drained_stopped (mb : BasicMailbox) (budget : Nat) :
    (drained mb budget).stopped = mb.stopped := rfl

theorem drained_queue (mb : BasicMailbox) (budget : Nat) :
    (drained mb budget).queue = mb.queue.drop budget := rfl

theorem logFor_append_other (s2 s : System) (id idB : Nat) (l : List Nat)
    (hne : idB ≠ id)
    (hp : s2.processedLog = s.processedLog ++ l.map (fun m => (idB, m))) :
    logFor s2 id = logFor s id := by
  unfold logFor
  rw [hp, List.filter_append]
  have hnil : (l.map (fun m => (idB, m))).filter (fun e => decide (e.1 = id)) = [] := by
    apply List.filter_eq_nil_iff.mpr
    intro a ha
    rcases List.mem_map.mp ha with ⟨m, _, rfl⟩
    simp [hne]
  rw [hnil, List.append_nil]

theorem takeFsm_some_shape (mb mbB : BasicMailbox) (f : Fsm)
    (ht : mb.takeFsm = some (f, mbB)) :
    mbB = { mb with cell := none, resched := false } := by
  cases hc : mb.cell with
  | none => simp [BasicMailbox.takeFsm, hc] at ht
  | some g =>
    simp only [BasicMailbox.takeFsm, hc, Option.some.injEq, Prod.mk.injEq] at ht
    exact ht.2.symm

theorem sendControl_ok_shape (s : System) (msg : Nat) (s2 : System)
    (h : sendControl s msg = Except.ok s2) :
    s2.normals = s.normals ∧ s2.processedLog = s.processedLog := by
  unfold sendControl at h
  cases hm : mailboxSend s.control msg with
  | error e => simp only [hm] at h; simp at h
  | ok c2 =>
    simp only [hm] at h
    cases hc : s.control.cell with
    | some g =>
      simp only [hc] at h
      injection h with h2
      rw [← h2]
      exact ⟨rfl, rfl⟩
    | none =>
      simp only [hc] at h
      injection h with h2
      rw [← h2]
      exact ⟨rfl, rfl⟩

theorem pollControl_preserves (s : System) (b : Nat) :
    (pollControl s b).normals = s.normals ∧
      (pollControl s b).processedLog = s.processedLog := by
  unfold pollControl
  cases ht : s.control.takeFsm with
  | none => exact ⟨rfl, rfl⟩
  | some p =>
    obtain ⟨f, c1⟩ := p
    dsimp only
    split
    · exact ⟨rfl, rfl⟩
    · split
      · exact ⟨rfl, rfl⟩
      · exact ⟨rfl, rfl⟩

theorem handleStep_noop_held (s : System) (idB b : Nat)
    (hh : lookupHeld s.held idB = none) : handleStep s idB b = s := by
  simp only [handleStep, hh]

theorem handleStep_noop_mb (s : System) (idB b : Nat) (fB : Fsm)
    (hh : lookupHeld s.held idB = some fB)
    (hl : lookupMb s.normals idB = none) : handleStep s idB b = s := by
  simp only [handleStep, hh, hl]

theorem handleStep_eq (s : System) (idB b : Nat) (fB : Fsm) (mbB : BasicMailbox)
    (hh : lookupHeld s.held idB = some fB)
    (hl : lookupMb s.normals idB = some mbB) :
    handleStep s idB b =
      { setMb s idB { mbB with queue := mbB.queue.drop b } with
        held := setHeld s.held idB { fB with handled := fB.handled ++ mbB.queue.take b }
        processedLog := s.processedLog ++
          (mbB.queue.take b).map (fun m => (idB, m)) } := by
  simp only [handleStep, hh, hl, handleBudget]

theorem releaseStep_noop_held (s : System) (idB : Nat)
    (hh : lookupHeld s.held idB = none) : releaseStep s idB = s := by
  simp only [releaseStep, hh]

theorem releaseStep_noop_mb (s : System) (idB : Nat) (fB : Fsm)
    (hh : lookupHeld s.held idB = some fB)
    (hl : lookupMb s.normals idB = none) : releaseStep s idB = s := by
  simp only [releaseStep, hh, hl]

theorem releaseStep_eq (s : System) (idB : Nat) (fB : Fsm) (mbB : BasicMailbox)
    (hh : lookupHeld s.held idB = some fB)
    (hl : lookupMb s.normals idB = some mbB) :
    releaseStep s idB =
      reclaim { s with held := removeHeld s.held idB } idB mbB fB := by
  simp only [releaseStep, hh, hl]

/- Preservation of the closed-tombstone invariant and of the processed log
of a closed id, operation by operation. -/

theorem pollOne_tomb (s : System) (idB b id : Nat) (h : closedTomb s id = true) :
    closedTomb (pollOne s idB b) id = true ∧
      logFor (pollOne s idB b) id = logFor s id := by
  cases hl : lookupMb s.normals idB with
  | none =>
    have he : pollOne s idB b = s := by simp only [pollOne, hl]
    rw [he]
    exact ⟨h, rfl⟩
  | some mbB =>
    cases hcell : mbB.cell with
    | none =>
      have he : pollOne s idB b = s := by
        simp only [pollOne, hl, BasicMailbox.takeFsm, hcell]
      rw [he]
      exact ⟨h, rfl⟩
    | some f =>
      rw [pollOne_eq s idB b mbB f hl hcell]
      have hmidLog :
          ({ setMb s idB (drained mbB b) with
            processedLog := s.processedLog ++
              (mbB.queue.take b).map (fun m => (idB, m)) } : System).processedLog =
            s.processedLog ++ (mbB.queue.take b).map (fun m => (idB, m)) := rfl
      have hmidLookup :
          lookupMb ({ setMb s idB (drained mbB b) with
            processedLog := s.processedLog ++
              (mbB.queue.take b).map (fun m => (idB, m)) } : System).normals id =
            lookupMb (setMbList s.normals idB (drained mbB b)) id := rfl
      have hLog := logFor_congr
        (reclaim
          { setMb s idB (drained mbB b) with
            processedLog := s.processedLog ++
              (mbB.queue.take b).map (fun m => (idB, m)) }
          idB (drained mbB b) { f with handled := f.handled ++ mbB.queue.take b })
        { setMb s idB (drained mbB b) with
          processedLog := s.processedLog ++
            (mbB.queue.take b).map (fun m => (idB, m)) }
        id (reclaim_processedLog _ idB _ _)
      by_cases hne : idB = id
      · subst hne
        obtain ⟨mb, hl2, hc0, hq0⟩ := closedTomb_elim s idB h
        have hmbeq : mb = mbB := Option.some.inj (hl2.symm.trans hl)
        subst hmbeq
        constructor
        · refine reclaim_tomb_self
            { setMb s idB (drained mb b) with
              processedLog := s.processedLog ++
                (mb.queue.take b).map (fun m => (idB, m)) }
            idB (drained mb b) { f with handled := f.handled ++ mb.queue.take b }
            (drained mb b)
            (lookupMb_setMbList_self s.normals idB mb _ hl) hc0 ?_
          rw [drained_queue, hq0, List.drop_nil]
        · rw [hLog]
          apply logFor_congr
          rw [hmidLog, hq0]
          simp
      · constructor
        · have hck := closedTomb_eq_of_lookup
            (reclaim
              { setMb s idB (drained mbB b) with
                processedLog := s.processedLog ++
                  (mbB.queue.take b).map (fun m => (idB, m)) }
              idB (drained mbB b) { f with handled := f.handled ++ mbB.queue.take b })
            s id
            ((reclaim_lookup_ne _ idB _ _ id hne).trans
              (hmidLookup.trans (lookupMb_setMbList_ne s.normals idB id _ hne)))
          rw [hck]
          exact h
        · rw [hLog]
          exact logFor_append_other _ s id idB (mbB.queue.take b) hne hmidLog

theorem foldPoll_tomb (b id : Nat) (batch : List BatchEntry) (t : System)
    (h : closedTomb t id = true) :
    closedTomb (batch.foldl
      (fun st e =>
        match e with
        | BatchEntry.control => pollControl st b
        | BatchEntry.normal idB => pollOne st idB b) t) id = true ∧
    logFor (batch.foldl
      (fun st e =>
        match e with
        | BatchEntry.control => pollControl st b
        | BatchEntry.normal idB => pollOne st idB b) t) id = logFor t id := by
  induction batch generalizing t with
  | nil => exact ⟨h, rfl⟩
  | cons e rest ih =>
    cases e with
    | control =>
      have hp := pollControl_preserves t b
      have h1 : closedTomb (pollControl t b) id = true := by
        rw [closedTomb_congr _ t id hp.1]
        exact h
      have h2 := ih (pollControl t b) h1
      exact ⟨h2.1, h2.2.trans (logFor_congr _ t id hp.2)⟩
    | normal idB =>
      have h1 := pollOne_tomb t idB b id h
      have h2 := ih (pollOne t idB b) h1.1
      exact ⟨h2.1, h2.2.trans h1.2⟩

theorem fetchBatch_preserves (s : System) (m : Nat) :
    (fetchBatch s m).2.normals = s.normals ∧
      (fetchBatch s m).2.processedLog = s.processedLog := by
  unfold fetchBatch
  split <;> exact ⟨rfl, rfl⟩

theorem pollRound_tomb (s : System) (m b id : Nat) (h : closedTomb s id = true) :
    closedTomb (pollRound s m b) id = true ∧
      logFor (pollRound s m b) id = logFor s id := by
  unfold pollRound
  have hfb := fetchBatch_preserves s m
  have h0 : closedTomb (fetchBatch s m).2 id = true := by
    rw [closedTomb_congr _ s id hfb.1]
    exact h
  have hf := foldPoll_tomb b id (fetchBatch s m).1 (fetchBatch s m).2 h0
  exact ⟨hf.1, hf.2.trans (logFor_congr _ s id hfb.2)⟩

theorem stepOp_tomb (s : System) (id : Nat) (op : Op) (h : closedTomb s id = true) :
    closedTomb (stepOp s op) id = true ∧ logFor (stepOp s op) id = logFor s id := by
  cases op with
  | send idB msg =>
    simp only [stepOp]
    cases hr : routerSend s idB msg with
    | error e => exact ⟨h, rfl⟩
    | ok s2 =>
      by_cases hne : idB = id
      · subst hne
        obtain ⟨mb, hl, hc, _⟩ := closedTomb_elim s idB h
        rw [routerSend_closed s idB msg mb hl hc] at hr
        cases hr
      · obtain ⟨hlk, hlog⟩ := routerSend_ok_lookup_ne s idB msg s2 id hne hr
        constructor
        · unfold closedTomb
          rw [hlk]
          exact h
        · exact logFor_congr s2 s id hlog
  | sendCtl msg =>
    simp only [stepOp]
    cases hr : sendControl s msg with
    | error e => exact ⟨h, rfl⟩
    | ok s2 =>
      obtain ⟨hn, hlog⟩ := sendControl_ok_shape s msg s2 hr
      constructor
      · rw [closedTomb_congr s2 s id hn]
        exact h
      · exact logFor_congr s2 s id hlog
  | close idB =>
    simp only [stepOp]
    unfold routerClose
    cases hl : lookupMb s.normals idB with
    | none => exact ⟨h, rfl⟩
    | some mbB =>
      by_cases hne : idB = id
      · subst hne
        refine ⟨closedTomb_intro _ idB _
          (lookupMb_setMbList_self s.normals idB mbB _ hl) rfl rfl, rfl⟩
      · constructor
        · rw [closedTomb_eq_of_lookup
            (setMb s idB { mbB with closed := true, stopped := true, queue := [] })
            s id (lookupMb_setMbList_ne s.normals idB id _ hne)]
          exact h
        · rfl
  | take idB =>
    simp only [stepOp]
    cases hl : lookupMb s.normals idB with
    | none =>
      rw [takeStep_absent s idB hl]
      exact ⟨h, rfl⟩
    | some mbB =>
      cases ht : mbB.takeFsm with
      | none =>
        rw [takeStep_none_cell s idB mbB hl ht]
        exact ⟨h, rfl⟩
      | some p =>
        obtain ⟨f, mbBt⟩ := p
        rw [takeStep_some s idB mbB mbBt f hl ht]
        have hshape := takeFsm_some_shape mbB mbBt f ht
        by_cases hne : idB = id
        · subst hne
          obtain ⟨mb, hl2, hc0, hq0⟩ := closedTomb_elim s idB h
          have hmbeq : mb = mbB := Option.some.inj (hl2.symm.trans hl)
          subst hmbeq
          refine ⟨closedTomb_intro _ idB mbBt
            (lookupMb_setMbList_self s.normals idB mb _ hl) ?_ ?_, rfl⟩
          · rw [hshape]
            exact hc0
          · rw [hshape]
            exact hq0
        · constructor
          · rw [closedTomb_eq_of_lookup
              { setMb s idB mbBt with held := (idB, f) :: s.held }
              s id (lookupMb_setMbList_ne s.normals idB id _ hne)]
            exact h
          · rfl
  | handle idB b =>
    simp only [stepOp]
    cases hh : lookupHeld s.held idB with
    | none =>
      rw [handleStep_noop_held s idB b hh]
      exact ⟨h, rfl⟩
    | some fB =>
      cases hl : lookupMb s.normals idB with
      | none =>
        rw [handleStep_noop_mb s idB b fB hh hl]
        exact ⟨h, rfl⟩
      | some mbB =>
        rw [handleStep_eq s idB b fB mbB hh hl]
        by_cases hne : idB = id
        · subst hne
          obtain ⟨mb, hl2, hc0, hq0⟩ := closedTomb_elim s idB h
          have hmbeq : mb = mbB := Option.some.inj (hl2.symm.trans hl)
          subst hmbeq
          constructor
          · refine closedTomb_intro _ idB { mb with queue := mb.queue.drop b }
              (lookupMb_setMbList_self s.normals idB mb _ hl) hc0 ?_
            rw [show ({ mb with queue := mb.queue.drop b } : BasicMailbox).queue
              = mb.queue.drop b from rfl, hq0, List.drop_nil]
          · apply logFor_congr
            show s.processedLog ++ (mb.queue.take b).map (fun m => (idB, m))
              = s.processedLog
            rw [hq0]
            simp
        · constructor
          · rw [closedTomb_eq_of_lookup
              { setMb s idB { mbB with queue := mbB.queue.drop b } with
                held := setHeld s.held idB
                  { fB with handled := fB.handled ++ mbB.queue.take b }
                processedLog := s.processedLog ++
                  (mbB.queue.take b).map (fun m => (idB, m)) }
              s id (lookupMb_setMbList_ne s.normals idB id _ hne)]
            exact h
          · exact logFor_append_other _ s id idB (mbB.queue.take b) hne rfl
  | release idB =>
    simp only [stepOp]
    cases hh : lookupHeld s.held idB with
    | none =>
      rw [releaseStep_noop_held s idB hh]
      exact ⟨h, rfl⟩
    | some fB =>
      cases hl : lookupMb s.normals idB with
      | none =>
        rw [releaseStep_noop_mb s idB fB hh hl]
        exact ⟨h, rfl⟩
      | some mbB =>
        rw [releaseStep_eq s idB fB mbB hh hl]
        by_cases hne : idB = id
        · subst hne
          obtain ⟨mb, hl2, hc0, hq0⟩ := closedTomb_elim s idB h
          have hmbeq : mb = mbB := Option.some.inj (hl2.symm.trans hl)
          subst hmbeq
          constructor
          · exact reclaim_tomb_self { s with held := removeHeld s.held idB }
              idB mb fB mb hl hc0 hq0
          · exact logFor_congr _ s idB
              (reclaim_processedLog { s with held := removeHeld s.held idB } idB mb fB)
        · constructor
          · rw [closedTomb_eq_of_lookup
              (reclaim { s with held := removeHeld s.held idB } idB mbB fB) s id
              (reclaim_lookup_ne { s with held := removeHeld s.held idB }
                idB mbB fB id hne)]
            exact h
          · exact logFor_congr _ s id
              (reclaim_processedLog { s with held := removeHeld s.held idB } idB mbB fB)
  | poll m b =>
    simp only [stepOp]
    exact pollRound_tomb s m b id h

theorem runOps_tomb (s : System) (id : Nat) (ops : List Op)
    (h : closedTomb s id = true) :
    closedTomb (runOps s ops) id = true ∧
      logFor (runOps s ops) id = logFor s id := by
  induction ops generalizing s with
  | nil => exact ⟨h, rfl⟩
  | cons op rest ih =>
    have h1 := stepOp_tomb s id op h
    have h2 := ih (stepOp s op) h1.1
    exact ⟨h2.1, h2.2.trans h1.2⟩

/- ## Claim theorems -/

/-- C9: `calculate_disk_usage` is commutative and computes the maximum of
its two arguments under the severity order Normal < AlmostFull <
AlreadyFull: it is AlreadyFull iff either argument is AlreadyFull,
AlmostFull iff neither is AlreadyFull and at least one is AlmostFull, and
Normal iff both are Normal. -/
theorem calculate_disk_usage_is_severity_max (a b : DiskUsage) :
    calculate_disk_usage a b = calculate_disk_usage b a ∧
    severity (calculate_disk_usage a b) = max (severity a) (severity b) ∧
    (calculate_disk_usage a b = a ∨ calculate_disk_usage a b = b) ∧
    (calculate_disk_usage a b = DiskUsage.AlreadyFull ↔
      a = DiskUsage.AlreadyFull ∨ b = DiskUsage.AlreadyFull) ∧
    (calculate_disk_usage a b = DiskUsage.AlmostFull ↔
      a ≠ DiskUsage.AlreadyFull ∧ b ≠ DiskUsage.AlreadyFull ∧
        (a = DiskUsage.AlmostFull ∨ b = DiskUsage.AlmostFull)) ∧
    (calculate_disk_usage a b = DiskUsage.Normal ↔
      a = DiskUsage.Normal ∧ b = DiskUsage.Normal) := by
  cases a <;> cases b <;> decide

/-- C10: when reading disk space statistics fails for the kv-engine path,
or for the raft path while the raft engine is on a separate mount point
with a nonzero raft almost-full threshold, `inspect` swallows the error
and returns all three statuses Normal with capacity 0 and available 0. -/
theorem inspect_stats_failure (c : DiskUsageChecker)
    (stats : String → Option (Nat × Nat)) (kvdb_used_size raft_used_size : Nat)
    (h : stats c.kvdb_path = none ∨
      (c.separated_raft_mount_path = true ∧ c.raft_almost_full_thd ≠ 0 ∧
        stats c.raft_path = none)) :
    c.inspect stats kvdb_used_size raft_used_size = inspectFailureResult := by
  rcases h with hkv | ⟨hsep, hthd, hraft⟩
  · unfold DiskUsageChecker.inspect
    simp only [hkv]
    split <;> rfl
  · have hcond : (!c.separated_raft_mount_path || c.raft_almost_full_thd == 0) = false := by
      simp [hsep, hthd]
    unfold DiskUsageChecker.inspect
    simp only [hcond, Bool.false_eq_true, if_false, hraft]

/-- Witness for C10 at a concrete checker and an always-failing stats
oracle. -/
theorem inspect_stats_failure_witness :
    DiskUsageChecker.inspect
      { kvdb_path := "/data/kv"
        raft_path := "/data/raft"
        raft_auxiliary_path := none
        separated_raft_mount_path := false
        separated_raft_auxiliary_mount_path := false
        separated_raft_auxiliary_and_kvdb_mount_path := false
        kvdb_almost_full_thd := 100
        raft_almost_full_thd := 100
        config_disk_capacity := 0 }
      (fun _ => none) 4000 1000 = inspectFailureResult :=
  inspect_stats_failure _ _ 4000 1000 (Or.inl rfl)

/-- C8: the batch-system crate root re-exports every interface named in the
spec: Router, BasicMailbox, Mailbox, BatchSystem, BatchRouter, Poller,
PollHandler, HandlerBuilder, PoolState, Config, Fsm, FsmScheduler,
Priority and create_system. -/
theorem batch_system_reexports_complete :
    "Router" ∈ batchSystemReexports ∧
    "BasicMailbox" ∈ batchSystemReexports ∧
    "Mailbox" ∈ batchSystemReexports ∧
    "BatchSystem" ∈ batchSystemReexports ∧
    "BatchRouter" ∈ batchSystemReexports ∧
    "Poller" ∈ batchSystemReexports ∧
    "PollHandler" ∈ batchSystemReexports ∧
    "HandlerBuilder" ∈ batchSystemReexports ∧
    "PoolState" ∈ batchSystemReexports ∧
    "Config" ∈ batchSystemReexports ∧
    "Fsm" ∈ batchSystemReexports ∧
    "FsmScheduler" ∈ batchSystemReexports ∧
    "Priority" ∈ batchSystemReexports ∧
    "create_system" ∈ batchSystemReexports := by
  decide

/-- C2: `mailboxSend` fails with Disconnected exactly when the target has
been closed or destroyed, fails with Full exactly when a bounded channel
is saturated, and in every other case succeeds, appending the message to
the FIFO; the model function is total, so a send never blocks, and both
errors are values handed back to the caller. -/
theorem send_error_characterization (mb : BasicMailbox) (msg : Nat) :
    (mailboxSend mb msg = Except.error NotifyError.Disconnected ↔ mb.closed = true) ∧
    (mailboxSend mb msg = Except.error NotifyError.Full ↔
      (mb.closed = false ∧ mailboxFull mb = true)) ∧
    ((mb.closed = false ∧ mailboxFull mb = false) ↔
      mailboxSend mb msg = Except.ok { mb with queue := mb.queue ++ [msg] }) := by
  unfold mailboxSend
  by_cases h1 : mb.closed <;> by_cases h2 : mailboxFull mb <;> simp [h1, h2]

/-- C6: an Fsm can be checked out by at most one poller at a time: a
successful `takeFsm` leaves the cell empty, so a second `takeFsm` returns
`none`; at the system level a second `takeStep` on the same id is a
no-op. -/
theorem take_at_most_one (mb mbB : BasicMailbox) (f : Fsm) (s : System) (id : Nat)
    (h : mb.takeFsm = some (f, mbB)) :
    mbB.takeFsm = none ∧ takeStep (takeStep s id) id = takeStep s id := by
  constructor
  · have hcell := takeFsm_some_cell_none mb mbB f h
    simp [BasicMailbox.takeFsm, hcell]
  · cases hl : lookupMb s.normals id with
    | none =>
      have h0 := takeStep_absent s id hl
      rw [h0]
      exact h0
    | some mb2 =>
      cases ht : mb2.takeFsm with
      | none =>
        have h0 := takeStep_none_cell s id mb2 hl ht
        rw [h0]
        exact h0
      | some p =>
        obtain ⟨f2, mb2B⟩ := p
        have h1 := takeStep_some s id mb2 mb2B f2 hl ht
        have hcell := takeFsm_some_cell_none mb2 mb2B f2 ht
        rw [h1]
        exact takeStep_none_cell _ id mb2B
          (lookupMb_setMbList_self s.normals id mb2 mb2B hl)
          (by simp [BasicMailbox.takeFsm, hcell])

/-- Witness for C6 at a concrete mailbox and system. -/
theorem take_at_most_one_witness :
    (newMailbox none 4 Priority.Normal).takeFsm =
      some ({ fid := 4, fsmPriority := Priority.Normal, handled := [] },
        { newMailbox none 4 Priority.Normal with cell := none, resched := false }) ∧
    ({ newMailbox none 4 Priority.Normal with
        cell := none, resched := false } : BasicMailbox).takeFsm = none := by
  refine ⟨rfl, ?_⟩
  exact (take_at_most_one (newMailbox none 4 Priority.Normal) _ _ emptySystem 4 rfl).1

/-- C3: batch collection always places the control Fsm first: whenever the
control slot is pending (and normal work is also ready), the collected
batch has the control entry at the head and every normal entry strictly
after it. -/
theorem control_polled_first (s : System) (maxBatch : Nat)
    (hc : s.controlReady = true) (_hr : s.readyQueue ≠ []) (_hm : 1 ≤ maxBatch) :
    (fetchBatch s maxBatch).1.head? = some BatchEntry.control ∧
    ∀ i id, (fetchBatch s maxBatch).1.get? i = some (BatchEntry.normal id) → 0 < i := by
  unfold fetchBatch
  rw [hc]
  simp only [if_true]
  refine ⟨rfl, ?_⟩
  intro i id hget
  cases i with
  | zero => simp at hget
  | succ n => exact Nat.succ_pos n

/-- Witness for C3 at a concrete system with pending control and normal
work. -/
theorem control_polled_first_witness :
    (fetchBatch { emptySystem with controlReady := true, readyQueue := [5] } 2).1.head?
      = some BatchEntry.control :=
  (control_polled_first { emptySystem with controlReady := true, readyQueue := [5] } 2
    rfl (by decide) (by decide)).1

/-- C4: after a poller finishes polling an Fsm, exactly one of three
outcomes occurs, decided by the Fsm's state: if the stopped flag is set
the Fsm is dropped permanently (cell left empty, mailbox closed, not
re-enqueued); else if the mailbox still holds messages beyond this round's
budget the Fsm is put back and immediately re-enqueued on the ready-queue;
otherwise it is released back to its mailbox idle cell and not
re-enqueued, awaiting the next send. -/
theorem poll_outcome_trichotomy (s : System) (id budget : Nat) (mb : BasicMailbox)
    (f : Fsm) (hmb : lookupMb s.normals id = some mb) (hcell : mb.cell = some f)
    (hrq : id ∉ s.readyQueue) :
    ∃ mbA, lookupMb (pollOne s id budget).normals id = some mbA ∧
      (mb.stopped = true →
        mbA.cell = none ∧ mbA.closed = true ∧
          id ∉ (pollOne s id budget).readyQueue) ∧
      (mb.stopped = false → mb.queue.drop budget ≠ [] →
        mbA.cell = some { f with handled := f.handled ++ mb.queue.take budget } ∧
          id ∈ (pollOne s id budget).readyQueue) ∧
      (mb.stopped = false → mb.queue.drop budget = [] →
        mbA.cell = some { f with handled := f.handled ++ mb.queue.take budget } ∧
          id ∉ (pollOne s id budget).readyQueue) := by
  rw [pollOne_eq s id budget mb f hmb hcell]
  cases hstop : mb.stopped with
  | true =>
    rw [reclaim_stopped _ _ _ _ ((drained_stopped mb budget).trans hstop)]
    refine ⟨_, lookupMb_setMbList_self _ id _ _
      (lookupMb_setMbList_self s.normals id mb _ hmb), ?_, ?_, ?_⟩
    · intro _
      exact ⟨rfl, rfl, hrq⟩
    · intro hcon _
      cases hcon
    · intro hcon _
      cases hcon
  | false =>
    by_cases hq : mb.queue.drop budget = []
    · rw [reclaim_idle _ _ _ _ ((drained_stopped mb budget).trans hstop)
        (by rw [drained_queue, hq]; rfl) rfl]
      refine ⟨_, lookupMb_setMbList_self _ id _ _
        (lookupMb_setMbList_self s.normals id mb _ hmb), ?_, ?_, ?_⟩
      · intro hcon
        cases hcon
      · intro _ hcon
        exact absurd hq hcon
      · intro _ _
        exact ⟨rfl, hrq⟩
    · rw [reclaim_pending _ _ _ _ ((drained_stopped mb budget).trans hstop)
        (by
          rw [drained_queue]
          exact Bool.eq_false_iff.mpr (fun hcon => hq (List.isEmpty_iff.mp hcon)))]
      rw [show ∀ t : System, (pushReady t id).normals = t.normals from
        fun t => pushReady_normals t id]
      refine ⟨_, lookupMb_setMbList_self _ id _ _
        (lookupMb_setMbList_self s.normals id mb _ hmb), ?_, ?_, ?_⟩
      · intro hcon
        cases hcon
      · intro _ _
        exact ⟨rfl, mem_pushReady _ id⟩
      · intro _ hcon
        exact absurd hcon hq

/-- Witness for C4 at a concrete state: one registered Fsm with three
queued messages polled with budget 1, landing in the re-enqueue case. -/
theorem poll_outcome_trichotomy_witness :
    ∃ mbA, lookupMb
        (pollOne
          { emptySystem with
            normals := [(3, { newMailbox none 3 Priority.Normal with
              queue := [10, 11, 12] })] }
          3 1).normals 3 = some mbA ∧
      ((newMailbox none 3 Priority.Normal).stopped = true →
        mbA.cell = none ∧ mbA.closed = true ∧
          3 ∉ (pollOne
            { emptySystem with
              normals := [(3, { newMailbox none 3 Priority.Normal with
                queue := [10, 11, 12] })] }
            3 1).readyQueue) ∧
      ((newMailbox none 3 Priority.Normal).stopped = false →
        List.drop 1 [10, 11, 12] ≠ [] →
        mbA.cell = some { fid := 3, fsmPriority := Priority.Normal, handled := List.take 1 [10, 11, 12] } ∧
          3 ∈ (pollOne
            { emptySystem with
              normals := [(3, { newMailbox none 3 Priority.Normal with
                queue := [10, 11, 12] })] }
            3 1).readyQueue) ∧
      ((newMailbox none 3 Priority.Normal).stopped = false →
        List.drop 1 [10, 11, 12] = [] →
        mbA.cell = some { fid := 3, fsmPriority := Priority.Normal, handled := List.take 1 [10, 11, 12] } ∧
          3 ∉ (pollOne
            { emptySystem with
              normals := [(3, { newMailbox none 3 Priority.Normal with
                queue := [10, 11, 12] })] }
            3 1).readyQueue) :=
  poll_outcome_trichotomy
    { emptySystem with
      normals := [(3, { newMailbox none 3 Priority.Normal with queue := [10, 11, 12] })] }
    3 1 { newMailbox none 3 Priority.Normal with queue := [10, 11, 12] }
    { fid := 3, fsmPriority := Priority.Normal, handled := [] }
    (by decide) rfl (by decide)

/-- C5: in the spec scenario — Fsm id 7 registered with priority Normal,
three messages sent, poll rounds run with `max_batch_size = 1` and per-Fsm
budget 2 — the first round processes exactly the first two messages, the
Fsm is re-enqueued on the ready-queue, and the second round processes the
remaining third message, after which the ready-queue is empty. -/
theorem budget_two_rounds :
    handledOf budgetRound1 7 = [1, 2] ∧
    budgetRound1.readyQueue = [7] ∧
    handledOf budgetRound2 7 = [1, 2, 3] ∧
    budgetRound2.readyQueue = [] ∧
    logFor budgetRound2 7 = [(7, 1), (7, 2), (7, 3)] := by
  decide

/-- C1: after `routerClose id` on a registered mailbox, whatever sequence
of further operations (sends, control sends, closes, takes, handler steps,
releases, poll rounds) the environment performs, every subsequent send to
`id` returns `Disconnected`, and the processed-message log for `id` never
grows: no message sent after the close is ever processed by the Fsm's
handler. -/
theorem closed_mailbox_rejection (s0 : System) (id : Nat) (ops : List Op) (msg : Nat)
    (hreg : (lookupMb s0.normals id).isSome = true) :
    routerSend (runOps (routerClose s0 id) ops) id msg
      = Except.error NotifyError.Disconnected ∧
    logFor (runOps (routerClose s0 id) ops) id = logFor (routerClose s0 id) id := by
  obtain ⟨mb0, hmb0⟩ := Option.isSome_iff_exists.mp hreg
  have htomb0 : closedTomb (routerClose s0 id) id = true := by
    have he : routerClose s0 id
        = setMb s0 id { mb0 with closed := true, stopped := true, queue := [] } := by
      simp only [routerClose, hmb0]
    rw [he]
    exact closedTomb_intro _ id _
      (lookupMb_setMbList_self s0.normals id mb0 _ hmb0) rfl rfl
  have hrun := runOps_tomb (routerClose s0 id) id ops htomb0
  obtain ⟨mb, hl, hc, _⟩ := closedTomb_elim _ id hrun.1
  exact ⟨routerSend_closed _ id msg mb hl hc, hrun.2⟩

/-- Witness for C1: register id 9, close it at once, then run a send and a
poll round; the send after close is rejected and the log stays empty. -/
theorem closed_mailbox_rejection_witness :
    routerSend
      (runOps (routerClose (routerRegister emptySystem 9 none Priority.Normal) 9)
        [Op.send 9 1, Op.poll 4 10]) 9 2
      = Except.error NotifyError.Disconnected ∧
    logFor
      (runOps (routerClose (routerRegister emptySystem 9 none Priority.Normal) 9)
        [Op.send 9 1, Op.poll 4 10]) 9
      = logFor (routerClose (routerRegister emptySystem 9 none Priority.Normal) 9) 9 :=
  closed_mailbox_rejection (routerRegister emptySystem 9 none Priority.Normal) 9
    [Op.send 9 1, Op.poll 4 10] 2 (by decide)

/-- C7: if a send succeeds while the target Fsm is checked out by a poller,
the sender only enqueues the message and sets the needs-reschedule flag —
the ready-queue is untouched and the (total) send function returns at once
— and the subsequent `releaseStep` re-notifies the scheduler, so a poll of
the mailbox with enough budget processes the message without any further
external send: no lost wakeup. -/
theorem no_lost_wakeup (s : System) (id msg budget : Nat) (mb : BasicMailbox)
    (f : Fsm)
    (hmb : lookupMb s.normals id = some mb)
    (hcell : mb.cell = none)
    (hheld : lookupHeld s.held id = some f)
    (hopen : mb.closed = false)
    (hfull : mailboxFull mb = false)
    (hstop : mb.stopped = false)
    (hbudget : mb.queue.length + 1 ≤ budget) :
    ∃ s1, routerSend s id msg = Except.ok s1 ∧
      s1.readyQueue = s.readyQueue ∧
      (∃ mb1, lookupMb s1.normals id = some mb1 ∧ mb1.resched = true ∧
        mb1.queue = mb.queue ++ [msg]) ∧
      id ∈ (releaseStep s1 id).readyQueue ∧
      (id, msg) ∈ (pollOne (releaseStep s1 id) id budget).processedLog := by
  have hsend := routerSend_ok_polling s id msg mb hmb hopen hfull hcell
  have hrel : releaseStep
      (setMb s id { mb with queue := mb.queue ++ [msg], resched := true }) id =
      pushReady
        (setMb
          { setMb s id { mb with queue := mb.queue ++ [msg], resched := true } with
            held := removeHeld
              (setMb s id
                { mb with queue := mb.queue ++ [msg], resched := true }).held id }
          id { mb with queue := mb.queue ++ [msg], resched := false, cell := some f })
        id := by
    rw [releaseStep_eq
      (setMb s id { mb with queue := mb.queue ++ [msg], resched := true }) id f
      { mb with queue := mb.queue ++ [msg], resched := true }
      (show lookupHeld
          (setMb s id { mb with queue := mb.queue ++ [msg], resched := true }).held id
          = some f from hheld)
      (show lookupMb
          (setMb s id { mb with queue := mb.queue ++ [msg], resched := true }).normals id
          = some { mb with queue := mb.queue ++ [msg], resched := true } from
        lookupMb_setMbList_self s.normals id mb _ hmb)]
    rw [reclaim_pending _ id
      { mb with queue := mb.queue ++ [msg], resched := true } f
      (show ({ mb with queue := mb.queue ++ [msg], resched := true } : BasicMailbox).stopped = false from hstop)
      (show (({ mb with queue := mb.queue ++ [msg], resched := true } : BasicMailbox).queue).isEmpty = false from
        Bool.eq_false_iff.mpr (fun hcon => by simp [List.isEmpty_iff] at hcon))]
  refine ⟨setMb s id { mb with queue := mb.queue ++ [msg], resched := true },
    hsend, rfl, ⟨{ mb with queue := mb.queue ++ [msg], resched := true },
      lookupMb_setMbList_self s.normals id mb _ hmb, rfl, rfl⟩, ?_, ?_⟩
  · rw [hrel]
    exact mem_pushReady _ id
  · rw [hrel]
    have hl2 : lookupMb
        (pushReady
          (setMb
            { setMb s id { mb with queue := mb.queue ++ [msg], resched := true } with
              held := removeHeld
                (setMb s id
                  { mb with queue := mb.queue ++ [msg], resched := true }).held id }
            id { mb with queue := mb.queue ++ [msg], resched := false, cell := some f })
          id).normals id =
        some { mb with queue := mb.queue ++ [msg], resched := false, cell := some f } := by
      rw [pushReady_normals]
      exact lookupMb_setMbList_self _ id
        { mb with queue := mb.queue ++ [msg], resched := true } _
        (lookupMb_setMbList_self s.normals id mb _ hmb)
    rw [pollOne_eq _ id budget _ f hl2 rfl]
    rw [reclaim_processedLog]
    show (id, msg) ∈ _ ++ ((mb.queue ++ [msg]).take budget).map (fun m => (id, m))
    rw [List.take_of_length_le (by simpa using hbudget)]
    refine List.mem_append.mpr (Or.inr ?_)
    exact List.mem_map.mpr ⟨msg, by simp, rfl⟩

/-- Witness for C7 at a concrete checked-out mailbox. -/
theorem no_lost_wakeup_witness :
    ∃ s1, routerSend
        { emptySystem with
          normals := [(5, { newMailbox none 5 Priority.Normal with cell := none, queue := [8] })]
          held := [(5, { fid := 5, fsmPriority := Priority.Normal, handled := [] })] }
        5 6 = Except.ok s1 ∧
      s1.readyQueue =
        ({ emptySystem with
          normals := [(5, { newMailbox none 5 Priority.Normal with cell := none, queue := [8] })]
          held := [(5, { fid := 5, fsmPriority := Priority.Normal, handled := [] })] } : System).readyQueue ∧
      (∃ mb1, lookupMb s1.normals 5 = some mb1 ∧ mb1.resched = true ∧
        mb1.queue = [8] ++ [6]) ∧
      5 ∈ (releaseStep s1 5).readyQueue ∧
      (5, 6) ∈ (pollOne (releaseStep s1 5) 5 3).processedLog :=
  no_lost_wakeup
    { emptySystem with
      normals := [(5, { newMailbox none 5 Priority.Normal with cell := none, queue := [8] })]
      held := [(5, { fid := 5, fsmPriority := Priority.Normal, handled := [] })] }
    5 6 3 { newMailbox none 5 Priority.Normal with cell := none, queue := [8] }
    { fid := 5, fsmPriority := Priority.Normal, handled := [] }
    (by decide) rfl (by decide) rfl rfl rfl (by decide)

end TikvSpec
